import Mathlib

/-!
Shallow embedding of `src/app.py` (SHOWROOM event participant extractor):
a paginated API fetcher, an FTP snapshot download, a pandas-based
"latest event wins" reconciliation, and the orchestrating `main`.

Conventions of the embedding:
* machine floats are modelled by exact rationals (`ℚ`); float64 rounding of
  magnitudes beyond 2^53 is outside the model;
* string manipulation is carried out on the underlying character lists, so
  that every definition evaluates by kernel reduction;
* a Python exception that a handler turns into "return what we have" is
  modelled by the corresponding early return; an exception that aborts the
  surrounding stage is modelled by an `Option` result (`none` = raised);
* I/O oracles (the HTTP API, the FTP server) are passed as explicit
  function/`Option` parameters.
-/

set_option autoImplicit false

namespace SREvent

/-- A participation record: the dictionaries built on lines 56-59 of
`app.py` and the rows of the persisted CSV.  Both fields are canonical
strings. -/
structure Room where
  room_id : String
  event_id : String
deriving DecidableEq

/-- Remove leading and trailing whitespace from a character list: the model
of Python `str.strip()` and of the whitespace tolerance of numeric
parsing. -/
def trimChars (l : List Char) : List Char :=
  (((l.dropWhile Char.isWhitespace).reverse).dropWhile Char.isWhitespace).reverse

/-- Split a character list at every character satisfying `p` (empty pieces
kept), as Python `str.split(sep)` on a one-character separator does. -/
def splitChars (p : Char → Bool) : List Char → List (List Char)
  | [] => [[]]
  | c :: cs =>
      let r := splitChars p cs
      if p c then [] :: r
      else
        match r with
        | [] => [[c]]
        | t :: ts => (c :: t) :: ts

/-- Decimal value of a digit list (helper for `toNumeric`). -/
def digitsVal (l : List Char) : ℕ :=
  l.foldl (fun n c => n * 10 + (c.toNat - 48)) 0

/-- Model of `pd.to_numeric(col, errors="coerce")` (line 201 of `app.py`)
on one cell, restricted to plain decimal literals: optional surrounding
whitespace, optional sign, digits with at most one decimal point, at least
one digit.  Anything else coerces to NaN, modelled as `none`.  (Scientific
notation and the literals `inf`/`nan` are outside the model; they play no
role in the claims.) -/
def toNumeric (s : String) : Option ℚ :=
  let t := trimChars s.data
  let sgn : Int := match t with
    | '-' :: _ => -1
    | _ => 1
  let u : List Char := match t with
    | '-' :: rest => rest
    | '+' :: rest => rest
    | _ => t
  match splitChars (fun c => c = '.') u with
  | [ip] =>
      if !ip.isEmpty && ip.all Char.isDigit then
        some (mkRat (sgn * (digitsVal ip : Int)) 1)
      else none
  | [ip, fp] =>
      if !(ip.isEmpty && fp.isEmpty) && ip.all Char.isDigit && fp.all Char.isDigit then
        some (mkRat (sgn * ((digitsVal ip : Int) * (10 : Int) ^ fp.length + (digitsVal fp : Int)))
          (10 ^ fp.length))
      else none
  | _ => none

/-- The rows of `combined_df` that belong to one `room_id` group, in their
original (existing-then-incoming) order; `groupby` preserves the
within-group row order (line 207). -/
def groupFor (rows : List Room) (k : String) : List Room :=
  rows.filter (fun r => r.room_id == k)

/-- Scan of one group to the right of a current best `(r, v)`:
`idxmax` (line 207) returns the first row label attaining the maximum, so a
later row replaces the current best only when its value is strictly
greater; NaN rows (`toNumeric` = `none`) are skipped. -/
def bestFrom (r : Room) (v : ℚ) : List Room → Room × ℚ
  | [] => (r, v)
  | q :: qs =>
      match toNumeric q.event_id with
      | none => bestFrom r v qs
      | some w => if v < w then bestFrom q w qs else bestFrom r v qs

/-- The row of a group that `idxmax` selects, with its numeric value:
the first row with a parseable `event_id` seeds the scan; `none` when every
row of the group is NaN (then `idxmax` has no maximum to point at). -/
def bestOf : List Room → Option (Room × ℚ)
  | [] => none
  | r :: rs =>
      match toNumeric r.event_id with
      | none => bestOf rs
      | some v => some (bestFrom r v rs)

/-- Row lookup `combined_df.loc[...]` over the per-group `idxmax` results
(lines 206-208): one winning row per group key.  `none` models the
exception pandas raises when some group is all-NaN (recent pandas:
`ValueError` from `idxmax`; older: a NaN label that `.loc` rejects) —
either way the handler on line 222 aborts the run. -/
def selectWinners (rows : List Room) : List String → Option (List Room)
  | [] => some []
  | k :: ks =>
      match bestOf (groupFor rows k), selectWinners rows ks with
      | some b, some rest => some (b.1 :: rest)
      | _, _ => none

/-- The distinct group keys of the working collection.  pandas emits groups
sorted by key; the spec declares output order insignificant (§3), so the
embedding uses `List.dedup` order instead of sorting. -/
def groupKeys (rows : List Room) : List String :=
  (rows.map Room.room_id).dedup

/-- The whole deduplication block (lines 199-211) applied to one working
collection: keep, per `room_id`, the row `idxmax` selects (with its
original `event_id` string; the helper numeric column is dropped again on
line 211). -/
def dedupRecords (rows : List Room) : Option (List Room) :=
  selectWinners rows (groupKeys rows)

/-- Reconciliation: `combined_df = pd.concat([existing_df, new_df])`
(line 195; when `existing_df` is empty line 197 uses `new_df` directly,
which coincides with concatenating the empty list) followed by the
deduplication block. -/
def reconcile (existing incoming : List Room) : Option (List Room) :=
  dedupRecords (existing ++ incoming)

/-! ### The paginated fetcher (`fetch_all_room_data`, lines 16-80) -/

/-- A JSON scalar as delivered by the listing API: identifiers arrive as
numbers or strings (the comment on line 55 of `app.py` notes the mix). -/
inductive PyVal where
  | int (n : Int)
  | str (s : String)
deriving DecidableEq

/-- Python truthiness of such a value: the integer `0` and the empty string
are falsy (the test on line 54 is `if room_id and current_event_id`). -/
def truthy : PyVal → Bool
  | .int n => n != 0
  | .str s => !s.data.isEmpty

/-- Python `str(...)` applied to such a value (lines 57-58). -/
def pyStr : PyVal → String
  | .int n => toString n
  | .str s => s

/-- The nested `event_entry` object of an API item; its `event_id` field may
be absent (`entry_data.get("event_id")`, line 52). -/
structure ApiEntry where
  event_id : Option PyVal
deriving DecidableEq

/-- One element of the API's `list` array.  `room_id` is read at top level
(line 49); the event identifier is read from the nested entry (lines
51-52, `room_data.get("event_entry", dict()).get("event_id")`). -/
structure ApiItem where
  room_id : Option PyVal
  event_entry : Option ApiEntry
deriving DecidableEq

/-- The `.get("event_entry", dict()).get("event_id")` chain: absent nesting
yields `None`. -/
def entryEventId (it : ApiItem) : Option PyVal :=
  match it.event_entry with
  | none => none
  | some e => e.event_id

/-- Lines 46-59: build a record from one item, or skip it.  The inclusion
test is the truthiness of both extracted values. -/
def processItem (it : ApiItem) : Option Room :=
  match it.room_id, entryEventId it with
  | some rv, some ev =>
      if truthy rv && truthy ev then some (Room.mk (pyStr rv) (pyStr ev)) else none
  | _, _ => none

/-- Outcome of one `GET` for `(event_id, page)`: `fail` covers every
exception path of lines 73-78 (timeout, non-success status via
`raise_for_status`, malformed JSON body); `ok` carries the `list` array and
the `next_page` field (absent or non-integer JSON made `none`). -/
inductive ApiResponse where
  | fail
  | ok (items : List ApiItem) (next_page : Option Int)

/-- What `fetch_all_room_data` returns and how it got there: the
accumulated records, the number of requests performed, and whether the
pagination loop ended in the error handler (reported as a soft failure on
line 74) rather than normally. -/
structure FetchResult where
  rooms : List Room
  requests : Nat
  aborted : Bool
deriving DecidableEq

/-- The pagination loop (lines 27-78), driven by an oracle `api` giving the
response for each page.  `fuel` bounds the number of iterations so the
model is total; the Python loop itself has no such bound (a cursor cycle
longer than one page loops forever), and every theorem below consumes only
one unit of fuel per actual request.  Loop body, faithfully ordered: call
the API (`fail` → report and break, keeping `acc`); if the item list is
empty, break; process the items; if `next_page` is absent or equal to the
current page, break; otherwise continue on `next_page` (the 0.5 s
inter-page sleep has no observable effect here). -/
def fetchGo (api : Int → ApiResponse) : Nat → Int → List Room → Nat → FetchResult
  | 0, _, acc, reqs => FetchResult.mk acc reqs false
  | Nat.succ fuel, page, acc, reqs =>
      match api page with
      | .fail => FetchResult.mk acc (reqs + 1) true
      | .ok items next =>
          if items.isEmpty then FetchResult.mk acc (reqs + 1) false
          else
            let acc2 := acc ++ items.filterMap processItem
            match next with
            | none => FetchResult.mk acc2 (reqs + 1) false
            | some np =>
                if np = page then FetchResult.mk acc2 (reqs + 1) false
                else fetchGo api fuel np acc2 (reqs + 1)

/-- `fetch_all_room_data(event_id)`: run the loop from page 1 with nothing
accumulated.  (The `st.cache_data` decoration only memoizes the call; it
does not change the computed value.) -/
def fetch_all_room_data (api : Int → ApiResponse) (fuel : Nat) : FetchResult :=
  fetchGo api fuel 1 [] 0

/-! ### The orchestrator's input parsing (`main`, lines 129-146) -/

/-- Python `str.isdigit()`: non-empty and every character a digit (the
model restricts to ASCII digits; exotic Unicode digit classes play no role
in the claims). -/
def isDigitToken (l : List Char) : Bool :=
  !l.isEmpty && l.all Char.isDigit

/-- Lines 134-140: if the input text is falsy, no identifiers; otherwise
split the stripped input at newlines and commas, strip each token, and keep
the tokens that `isdigit` accepts.  `re.split` with pattern `[\n,]+`
collapses separator runs; splitting at every separator character instead
only adds empty tokens, which the `isdigit` filter removes, so the final
lists coincide. -/
def parse_event_ids (input : String) : List String :=
  if input.data.isEmpty then []
  else
    let raw := splitChars (fun c => c = '\n' || c = ',') (trimChars input.data)
    (raw.filter (fun t => isDigitToken (trimChars t))).map (fun t => String.mk (trimChars t))

/-! ### The remote store adapter (lines 82-121) -/

/-- Field list of one CSV row: split at every comma.  The file format
performs no quoting or escaping (spec §6: identifiers are assumed not to
contain the delimiter), so the plain split is the tokenizer's behaviour on
this data. -/
def rowFields (line : List Char) : List (List Char) :=
  splitChars (fun c => c = ',') line

/-- Render one row of a table of width `w` as the program later sees it.
The row's fields fill the `w` slots left to right.  When the first row was
wider than the two given names, the leading `w - 2` columns become the
frame's index, which the downstream concatenation discards
(`ignore_index=True`, line 195), so the record keeps slots `w - 2` and
`w - 1`.  A missing trailing slot is NaN-filled by `read_csv`, and an
empty field is NaN as well (the default `na_values` include the empty
string); line 194's `astype(str)` then renders NaN as the string `"nan"`
before the frame is used.  (The other default NA tokens such as `"NULL"`
are not distinguished here; no claim depends on the emitted field text.) -/
def rowToRoom (w : Nat) (fields : List (List Char)) : Room :=
  let slot := fun (n : Nat) =>
    let f := fields.getD n []
    if f.isEmpty then ("nan") else String.mk f
  Room.mk (slot (w - 2)) (slot (w - 1))

/-- Parse a downloaded file as `pd.read_csv(header=None,
names=["room_id","event_id"], dtype=str)` (line 95) does.  Split into
lines (`retrlines` appended a newline to each, line 90) and drop blank
lines (`skip_blank_lines`).  `read_csv` raises — modelled by `none` —
exactly for an empty file (`EmptyDataError`) or a row with more fields
than the table width, which is the larger of 2 (the two given names) and
the first row's field count (`ParserError`, "Expected w fields, saw
...").  It does NOT raise on narrow rows (NaN-filled) or on a uniformly
wide table (leading columns shift into the index). -/
def parseCsv (content : String) : Option (List Room) :=
  let lines := (splitChars (fun c => c = '\n') content.data).filter (fun l => !l.isEmpty)
  match lines with
  | [] => none
  | l0 :: _ =>
      let w := max 2 (rowFields l0).length
      if lines.all (fun l => (rowFields l).length ≤ w) then
        some (lines.map (fun l => rowToRoom w (rowFields l)))
      else none

/-- `download_ftp_file` (lines 83-102): `remote` is the content at the
fixed path, `none` when the object does not exist (`RETR` raises).  Every
failure path — missing file or any parse error — lands in the `except`
branch of lines 99-102 and yields the empty record set, a warning, and a
normal return. -/
def download_ftp_file (remote : Option String) : List Room :=
  match remote with
  | none => []
  | some content =>
      match parseCsv content with
      | none => []
      | some rows => rows

/-! ### The orchestrator after the fetch stage (`main`, lines 150-223) -/

/-- The observable interactions with the remote store during one run. -/
inductive StoreOp where
  | connect
  | download
  | upload
deriving DecidableEq

/-- Lines 159-223 of `main`, after all fetching: if nothing was fetched,
report and return before the FTP block (lines 159-161) — no connection is
opened.  Otherwise connect, download the existing snapshot, reconcile, and
upload; when the deduplication block raises (all-NaN group), the handler on
line 222 reports and the upload never happens.  The store-session oracle is
the optional remote file content; connection and upload are assumed to
succeed, since the claims under study concern the empty-fetch guard and the
download, not FTP faults. -/
def run_after_fetch (fetched : List Room) (remote : Option String) :
    List StoreOp × Option (List Room) :=
  if fetched.isEmpty then ([], none)
  else
    match reconcile (download_ftp_file remote) fetched with
    | some final => ([StoreOp.connect, StoreOp.download, StoreOp.upload], some final)
    | none => ([StoreOp.connect, StoreOp.download], none)

/-! ### Helper lemmas about the reconciliation engine -/

theorem groupFor_room_id {rows : List Room} {k : String} {r : Room}
    (h : r ∈ groupFor rows k) : r.room_id = k := by
  have := List.of_mem_filter h
  simpa using this

theorem groupFor_sub {rows : List Room} {k : String} {r : Room}
    (h : r ∈ groupFor rows k) : r ∈ rows :=
  List.mem_of_mem_filter h

theorem groupFor_append (a b : List Room) (k : String) :
    groupFor (a ++ b) k = groupFor a k ++ groupFor b k := by
  simp [groupFor, List.filter_append]

theorem bestFrom_mem (l : List Room) : ∀ (r : Room) (v : ℚ),
    (bestFrom r v l).1 = r ∨ (bestFrom r v l).1 ∈ l := by
  induction l with
  | nil => intro r v; left; rfl
  | cons q qs ih =>
    intro r v
    unfold bestFrom
    cases hq : toNumeric q.event_id with
    | none =>
      rcases ih r v with h | h
      · left; exact h
      · right; exact List.mem_cons_of_mem _ h
    | some w =>
      by_cases hvw : v < w
      · simp only [if_pos hvw]
        rcases ih q w with h | h
        · right; rw [h]; exact List.mem_cons_self _ _
        · right; exact List.mem_cons_of_mem _ h
      · simp only [if_neg hvw]
        rcases ih r v with h | h
        · left; exact h
        · right; exact List.mem_cons_of_mem _ h

theorem bestFrom_parse (l : List Room) : ∀ (r : Room) (v : ℚ),
    toNumeric r.event_id = some v →
    toNumeric (bestFrom r v l).1.event_id = some (bestFrom r v l).2 := by
  induction l with
  | nil => intro r v h; simpa [bestFrom] using h
  | cons q qs ih =>
    intro r v h
    unfold bestFrom
    cases hq : toNumeric q.event_id with
    | none => exact ih r v h
    | some w =>
      by_cases hvw : v < w
      · simp only [if_pos hvw]; exact ih q w hq
      · simp only [if_neg hvw]; exact ih r v h

theorem bestOf_mem {l : List Room} {b : Room × ℚ} (h : bestOf l = some b) :
    b.1 ∈ l := by
  induction l with
  | nil => cases h
  | cons r rs ih =>
    unfold bestOf at h
    cases hr : toNumeric r.event_id with
    | none =>
      rw [hr] at h
      exact List.mem_cons_of_mem _ (ih h)
    | some v =>
      rw [hr] at h
      injection h with h
      rcases bestFrom_mem rs r v with h2 | h2
      · rw [← h, h2]; exact List.mem_cons_self _ _
      · rw [← h]; exact List.mem_cons_of_mem _ h2

theorem bestOf_parse {l : List Room} {b : Room × ℚ} (h : bestOf l = some b) :
    toNumeric b.1.event_id = some b.2 := by
  induction l with
  | nil => cases h
  | cons r rs ih =>
    unfold bestOf at h
    cases hr : toNumeric r.event_id with
    | none => rw [hr] at h; exact ih h
    | some v =>
      rw [hr] at h
      injection h with h
      rw [← h]
      exact bestFrom_parse rs r v hr

theorem bestOf_none {l : List Room} (h : ∀ q ∈ l, toNumeric q.event_id = none) :
    bestOf l = none := by
  induction l with
  | nil => rfl
  | cons r rs ih =>
    unfold bestOf
    rw [h r (List.mem_cons_self _ _)]
    exact ih (fun q hq => h q (List.mem_cons_of_mem _ hq))

theorem selectWinners_mem {rows : List Room} {ks : List String} {out : List Room}
    (h : selectWinners rows ks = some out) {k : String} (hk : k ∈ ks) :
    ∃ b, bestOf (groupFor rows k) = some b ∧ b.1 ∈ out := by
  induction ks generalizing out with
  | nil => cases hk
  | cons a ks ih =>
    unfold selectWinners at h
    cases hb : bestOf (groupFor rows a) with
    | none => rw [hb] at h; cases h
    | some b =>
      rw [hb] at h
      cases hrest : selectWinners rows ks with
      | none => rw [hrest] at h; cases h
      | some rest =>
        rw [hrest] at h
        injection h with h
        subst h
        rcases List.mem_cons.mp hk with rfl | hk2
        · exact ⟨b, hb, List.mem_cons_self _ _⟩
        · rcases ih hrest hk2 with ⟨c, hc1, hc2⟩
          exact ⟨c, hc1, List.mem_cons_of_mem _ hc2⟩

theorem selectWinners_parse {rows : List Room} {ks : List String} {out : List Room}
    (h : selectWinners rows ks = some out) {r : Room} (hr : r ∈ out) :
    ∃ w, toNumeric r.event_id = some w := by
  induction ks generalizing out with
  | nil =>
    unfold selectWinners at h
    injection h with h
    subst h
    cases hr
  | cons a ks ih =>
    unfold selectWinners at h
    cases hb : bestOf (groupFor rows a) with
    | none => rw [hb] at h; cases h
    | some b =>
      rw [hb] at h
      cases hrest : selectWinners rows ks with
      | none => rw [hrest] at h; cases h
      | some rest =>
        rw [hrest] at h
        injection h with h
        subst h
        rcases List.mem_cons.mp hr with rfl | hr2
        · exact ⟨b.2, bestOf_parse hb⟩
        · exact ih hrest hr2

theorem selectWinners_none {rows : List Room} {ks : List String} {k : String}
    (hk : k ∈ ks) (hb : bestOf (groupFor rows k) = none) :
    selectWinners rows ks = none := by
  induction ks with
  | nil => cases hk
  | cons a ks ih =>
    unfold selectWinners
    rcases List.mem_cons.mp hk with rfl | hk2
    · rw [hb]
    · rw [ih hk2]
      cases bestOf (groupFor rows a) <;> rfl

theorem selectWinners_map {rows : List Room} {ks : List String} {out : List Room}
    (h : selectWinners rows ks = some out) : out.map Room.room_id = ks := by
  induction ks generalizing out with
  | nil =>
    unfold selectWinners at h
    injection h with h
    subst h
    rfl
  | cons a ks ih =>
    unfold selectWinners at h
    cases hb : bestOf (groupFor rows a) with
    | none => rw [hb] at h; cases h
    | some b =>
      rw [hb] at h
      cases hrest : selectWinners rows ks with
      | none => rw [hrest] at h; cases h
      | some rest =>
        rw [hrest] at h
        injection h with h
        subst h
        have hb1 : b.1.room_id = a := groupFor_room_id (bestOf_mem hb)
        simp [hb1, ih hrest]

theorem filter_room_id_length (l : List Room) (p : String) :
    (l.filter (fun r => r.room_id == p)).length =
      ((l.map Room.room_id).filter (fun s => s == p)).length := by
  induction l with
  | nil => rfl
  | cons r t ih =>
    simp only [List.map_cons, List.filter_cons]
    cases h : (r.room_id == p) <;> simp [h, ih]

theorem nodup_filter_eq_length {p : String} (ks : List String) (hnd : ks.Nodup) :
    (ks.filter (fun s => s == p)).length = if p ∈ ks then 1 else 0 := by
  induction ks with
  | nil => rfl
  | cons a t ih =>
    rcases List.nodup_cons.mp hnd with ⟨hna, hnd2⟩
    by_cases hap : a = p
    · subst hap
      have hzero : (t.filter (fun s => s == a)).length = 0 := by
        rw [List.length_eq_zero, List.filter_eq_nil_iff]
        intro b hb
        simp only [beq_iff_eq]
        intro hba
        exact hna (hba ▸ hb)
      simp [List.filter_cons, hzero]
    · have hfa : (a == p) = false := by simpa using hap
      simp [List.filter_cons, hfa, ih hnd2, Ne.symm hap]

/-! ### Claim theorems -/

/-- C1, counterexample: existing `("1","05")` and incoming `("1","5")` have
numerically equal `event_id`s (both 5), yet the record selected for the
output is the earlier-occurring existing `("1","05")` — `idxmax` returns
the first row label attaining the maximum — so the later-occurring incoming
record `("1","5")` is not the one selected, contrary to the claim. -/
theorem reconcile_tie_cex :
    toNumeric ("05") = toNumeric ("5")
    ∧ reconcile [Room.mk ("1") ("05")] [Room.mk ("1") ("5")] = some [Room.mk ("1") ("05")]
    ∧ ¬ Room.mk ("1") ("5") ∈ [Room.mk ("1") ("05")] := by
  refine ⟨by decide, by decide, by decide⟩

/-- C1, amended: when two records share a `participant_id` and their
`event_id` values are numerically equal, the record selected for the output
is the EARLIER-occurring one in the working collection (existing beats
incoming on a tie), because `idxmax` returns the first index attaining the
maximum. -/
theorem reconcile_tie_earlier_wins (e i : List Room) (p : String) (re ri : Room) (v : ℚ)
    (out : List Room)
    (he : groupFor e p = [re]) (hi : groupFor i p = [ri])
    (ha : toNumeric re.event_id = some v) (hb : toNumeric ri.event_id = some v)
    (hout : reconcile e i = some out) : re ∈ out := by
  have hg : groupFor (e ++ i) p = [re, ri] := by
    rw [groupFor_append, he, hi]; rfl
  have hbo : bestOf (groupFor (e ++ i) p) = some (re, v) := by
    rw [hg]
    simp [bestOf, bestFrom, ha, hb, lt_self_iff_false]
  have hre : re ∈ groupFor e p := by rw [he]; exact List.mem_cons_self _ _
  have hp : p ∈ groupKeys (e ++ i) := by
    unfold groupKeys
    rw [List.mem_dedup, ← groupFor_room_id hre]
    exact List.mem_map_of_mem Room.room_id (List.mem_append_left _ (groupFor_sub hre))
  have hout2 : selectWinners (e ++ i) (groupKeys (e ++ i)) = some out := hout
  obtain ⟨b, hb2, hmem⟩ := selectWinners_mem hout2 hp
  rw [hbo] at hb2
  injection hb2 with hb2
  rw [← hb2] at hmem
  exact hmem

theorem reconcile_tie_earlier_wins_witness :
    Room.mk ("1") ("05") ∈ [Room.mk ("1") ("05")] :=
  reconcile_tie_earlier_wins [Room.mk ("1") ("05")] [Room.mk ("1") ("5")] ("1")
    (Room.mk ("1") ("05")) (Room.mk ("1") ("5")) 5 [Room.mk ("1") ("05")]
    (by decide) (by decide) (by decide) (by decide) (by decide)

/-- C2: for a participant present in both inputs (one record on each side)
whose numeric `event_id` values differ and parse, the reconciled output
contains the record carrying the numerically larger value. -/
theorem reconcile_latest_wins (e i : List Room) (p : String) (re ri : Room) (a b : ℚ)
    (out : List Room)
    (he : groupFor e p = [re]) (hi : groupFor i p = [ri])
    (ha : toNumeric re.event_id = some a) (hb : toNumeric ri.event_id = some b)
    (_hab : a ≠ b) (hout : reconcile e i = some out) :
    (if a < b then ri else re) ∈ out := by
  have hg : groupFor (e ++ i) p = [re, ri] := by
    rw [groupFor_append, he, hi]; rfl
  have hbo : bestOf (groupFor (e ++ i) p) = some (if a < b then (ri, b) else (re, a)) := by
    rw [hg]
    by_cases h : a < b
    · simp [bestOf, bestFrom, ha, hb, h]
    · simp [bestOf, bestFrom, ha, hb, h]
  have hre : re ∈ groupFor e p := by rw [he]; exact List.mem_cons_self _ _
  have hp : p ∈ groupKeys (e ++ i) := by
    unfold groupKeys
    rw [List.mem_dedup, ← groupFor_room_id hre]
    exact List.mem_map_of_mem Room.room_id (List.mem_append_left _ (groupFor_sub hre))
  have hout2 : selectWinners (e ++ i) (groupKeys (e ++ i)) = some out := hout
  obtain ⟨c, hc, hmem⟩ := selectWinners_mem hout2 hp
  rw [hbo] at hc
  injection hc with hc
  rw [← hc] at hmem
  by_cases h : a < b
  · rw [if_pos h]
    rw [if_pos h] at hmem
    exact hmem
  · rw [if_neg h]
    rw [if_neg h] at hmem
    exact hmem

theorem reconcile_latest_wins_witness :
    (if (10 : ℚ) < 15 then Room.mk ("100") ("15") else Room.mk ("100") ("10")) ∈
      [Room.mk ("100") ("15")] :=
  reconcile_latest_wins [Room.mk ("100") ("10")] [Room.mk ("100") ("15")] ("100")
    (Room.mk ("100") ("10")) (Room.mk ("100") ("15")) 10 15 [Room.mk ("100") ("15")]
    (by decide) (by decide) (by decide) (by decide) (by decide) (by decide)

/-- C3, counterexample: the participant `"9"` appears in the incoming input
but the reconciled output does not exist at all — its only record has an
unparseable `event_id`, so the all-NaN group makes the deduplication block
raise (modelled by `none`) instead of producing an output in which `"9"`
appears exactly once. -/
theorem reconcile_unique_keys_cex :
    ("9") ∈ ([] ++ [Room.mk ("9") ("zz")]).map Room.room_id
    ∧ reconcile [] [Room.mk ("9") ("zz")] = none := by
  refine ⟨by decide, by decide⟩

/-- C3, amended: whenever reconciliation completes (returns an output
rather than raising), every distinct `participant_id` appearing in either
input appears exactly once in the output, and no other `participant_id`
appears. -/
theorem reconcile_each_key_once (e i : List Room) (out : List Room) (p : String)
    (hout : reconcile e i = some out) :
    (out.filter (fun r => r.room_id == p)).length =
      if p ∈ (e ++ i).map Room.room_id then 1 else 0 := by
  have hout2 : selectWinners (e ++ i) (groupKeys (e ++ i)) = some out := hout
  have hmap : out.map Room.room_id = groupKeys (e ++ i) := selectWinners_map hout2
  rw [filter_room_id_length, hmap]
  rw [nodup_filter_eq_length _ (by unfold groupKeys; exact List.nodup_dedup _)]
  simp [groupKeys, List.mem_dedup]

theorem reconcile_each_key_once_witness :
    (([Room.mk ("200") ("20"), Room.mk ("300") ("30")]).filter
        (fun r => r.room_id == ("200"))).length =
      if ("200") ∈ ([Room.mk ("200") ("20")] ++ [Room.mk ("300") ("30")]).map Room.room_id
      then 1 else 0 :=
  reconcile_each_key_once [Room.mk ("200") ("20")] [Room.mk ("300") ("30")]
    [Room.mk ("200") ("20"), Room.mk ("300") ("30")] ("200") (by decide)

/-- C4, counterexample: the record `("7","zz")` has an unparseable
`event_id` and no competitor at all, so by the claim it should survive to
the output; instead the deduplication block raises on its all-NaN group
(modelled by `none`) and the record reaches no output — the run aborts. -/
theorem reconcile_unparseable_kept_cex :
    toNumeric ("zz") = none
    ∧ reconcile [] [Room.mk ("7") ("zz")] = none := by
  refine ⟨by decide, by decide⟩

/-- C4, amended: a record whose `event_id` does not parse numerically is
never the selected record of a group that reconciliation emits (every
emitted record has a parseable `event_id`), and when some participant's
group consists solely of unparseable records the deduplication block raises
(modelled by `none`) — the record is not kept; the whole run aborts
instead. -/
theorem reconcile_unparseable_never_selected (e i : List Room) :
    (∀ out, reconcile e i = some out → ∀ r ∈ out, (toNumeric r.event_id).isSome = true)
    ∧ (∀ p, p ∈ groupKeys (e ++ i) →
        (∀ q ∈ groupFor (e ++ i) p, toNumeric q.event_id = none) →
        reconcile e i = none) := by
  constructor
  · intro out hout r hr
    have hout2 : selectWinners (e ++ i) (groupKeys (e ++ i)) = some out := hout
    obtain ⟨w, hw⟩ := selectWinners_parse hout2 hr
    rw [hw]
    rfl
  · intro p hp hall
    show dedupRecords (e ++ i) = none
    unfold dedupRecords
    exact selectWinners_none hp (bestOf_none hall)

theorem reconcile_unparseable_never_selected_witness :
    (toNumeric (Room.mk ("1") ("7")).event_id).isSome = true
    ∧ reconcile [] [Room.mk ("2") ("x")] = none := by
  constructor
  · exact (reconcile_unparseable_never_selected [] [Room.mk ("1") ("7")]).1
      [Room.mk ("1") ("7")] (by decide) (Room.mk ("1") ("7")) (by decide)
  · exact (reconcile_unparseable_never_selected [] [Room.mk ("2") ("x")]).2
      ("2") (by decide) (by decide)

/-- C5, counterexample: the input text `"5,5"` parses to the list
`["5","5"]`, which contains a duplicate identifier — lines 137-140 validate
the tokens but never deduplicate them, contrary to the claim. -/
theorem parse_event_ids_dup_cex :
    parse_event_ids ("5,5") = [("5"), ("5")]
    ∧ ¬ (parse_event_ids ("5,5")).Nodup := by
  refine ⟨by decide, by decide⟩

/-- C5, amended: the orchestrator's parsing of the requested collection
identifiers validates them as numeric-looking tokens — every element of the
resulting list is a non-empty all-digit token — but it does not
deduplicate, so a repeated identifier may appear repeatedly. -/
theorem parse_event_ids_valid (input : String) (t : String)
    (ht : t ∈ parse_event_ids input) : isDigitToken t.data = true := by
  unfold parse_event_ids at ht
  by_cases h : input.data.isEmpty
  · rw [if_pos h] at ht
    cases ht
  · rw [if_neg h] at ht
    simp only [List.mem_map] at ht
    obtain ⟨u, hu, rfl⟩ := ht
    have hvalid := List.of_mem_filter hu
    exact hvalid

theorem parse_event_ids_valid_witness :
    ("5") ∈ parse_event_ids ("5,5") ∧ isDigitToken ("5").data = true :=
  ⟨by decide, parse_event_ids_valid ("5,5") ("5") (by decide)⟩

/-- C6: when the request for the current page fails at transport level —
timeout, non-success HTTP status raised by `raise_for_status`, or a
malformed body, all caught on lines 73-78 — the pagination loop for that
collection stops immediately and returns exactly the records accumulated
from the pages processed before the failure, reporting the abort as a soft
failure (`aborted = true`) rather than raising it. -/
theorem fetch_abort_returns_accumulated (api : Int → ApiResponse) (fuel : Nat) (page : Int)
    (acc : List Room) (reqs : Nat) (hfail : api page = ApiResponse.fail) :
    fetchGo api (fuel + 1) page acc reqs = FetchResult.mk acc (reqs + 1) true := by
  unfold fetchGo
  rw [hfail]

theorem fetch_abort_returns_accumulated_witness :
    fetch_all_room_data
        (fun p => if p = 1
          then ApiResponse.ok
            [ApiItem.mk (some (PyVal.int 7)) (some (ApiEntry.mk (some (PyVal.int 40883))))]
            (some 2)
          else ApiResponse.fail) 3
      = FetchResult.mk [Room.mk ("7") ("40883")] 2 true :=
  (show fetch_all_room_data
        (fun p => if p = 1
          then ApiResponse.ok
            [ApiItem.mk (some (PyVal.int 7)) (some (ApiEntry.mk (some (PyVal.int 40883))))]
            (some 2)
          else ApiResponse.fail) 3
      = fetchGo
        (fun p => if p = 1
          then ApiResponse.ok
            [ApiItem.mk (some (PyVal.int 7)) (some (ApiEntry.mk (some (PyVal.int 40883))))]
            (some 2)
          else ApiResponse.fail) (1 + 1) 2 [Room.mk ("7") ("40883")] 1 from rfl).trans
    (fetch_abort_returns_accumulated _ 1 2 [Room.mk ("7") ("40883")] 1 rfl)

/-- C7: if the total fetched result is empty, the orchestrator aborts the
run with a user-facing failure before the FTP block is ever entered (lines
159-161): no connection is opened, nothing is downloaded and nothing is
uploaded. -/
theorem empty_fetch_aborts_before_store (fetched : List Room) (remote : Option String)
    (h : fetched = []) : run_after_fetch fetched remote = ([], none) := by
  subst h
  rfl

theorem empty_fetch_aborts_before_store_witness :
    run_after_fetch [] (some ("1,2")) = ([], none) :=
  empty_fetch_aborts_before_store [] (some ("1,2")) rfl

/-- C8: the download operation returns an empty record sequence whenever
the remote object does not exist or its content fails to parse (lines
99-102), and this outcome is non-fatal — the run proceeds, and
reconciliation against the empty existing set equals the deduplication of
the incoming set alone. -/
theorem download_failure_empty_nonfatal (remote : Option String) (incoming : List Room)
    (h : remote = none ∨ ∃ c, remote = some c ∧ parseCsv c = none) :
    download_ftp_file remote = []
    ∧ reconcile (download_ftp_file remote) incoming = dedupRecords incoming := by
  have hd : download_ftp_file remote = [] := by
    rcases h with h | ⟨c, rfl, hc⟩
    · rw [h]
      rfl
    · simp [download_ftp_file, hc]
  refine ⟨hd, ?_⟩
  rw [hd]
  unfold reconcile
  rw [List.nil_append]

theorem download_failure_empty_nonfatal_witness :
    download_ftp_file (some ("1,2\nx,y,z\n")) = []
    ∧ reconcile (download_ftp_file (some ("1,2\nx,y,z\n"))) [Room.mk ("3") ("4")]
        = dedupRecords [Room.mk ("3") ("4")] :=
  download_failure_empty_nonfatal (some ("1,2\nx,y,z\n")) [Room.mk ("3") ("4")]
    (Or.inr ⟨("1,2\nx,y,z\n"), rfl, by decide⟩)

/-- C9: the pagination loop terminates right after the current request when
the response's next-page cursor is absent or equal to the current page
(lines 62-67), returning the records gathered so far plus this page's; in
particular, against an API whose `next_page` always equals the requested
page, `fetch_all_room_data` performs exactly one request and stops
normally. -/
theorem fetch_stops_without_progress (api : Int → ApiResponse) (fuel : Nat) (page : Int)
    (acc : List Room) (reqs : Nat) (items : List ApiItem) (next : Option Int)
    (hres : api page = ApiResponse.ok items next)
    (hstop : next = none ∨ next = some page) :
    fetchGo api (fuel + 1) page acc reqs
      = FetchResult.mk (acc ++ items.filterMap processItem) (reqs + 1) false := by
  unfold fetchGo
  rw [hres]
  dsimp only
  by_cases hemp : items.isEmpty = true
  · rw [if_pos hemp]
    have : items = [] := by
      cases items with
      | nil => rfl
      | cons a t => cases hemp
    subst this
    simp
  · rw [if_neg hemp]
    rcases hstop with rfl | rfl
    · rfl
    · simp

theorem fetch_stops_without_progress_witness :
    fetch_all_room_data
        (fun p => ApiResponse.ok
          [ApiItem.mk (some (PyVal.str ("8"))) (some (ApiEntry.mk (some (PyVal.str ("40884")))))]
          (some p)) 5
      = FetchResult.mk [Room.mk ("8") ("40884")] 1 false :=
  (fetch_stops_without_progress
      (fun p => ApiResponse.ok
        [ApiItem.mk (some (PyVal.str ("8"))) (some (ApiEntry.mk (some (PyVal.str ("40884")))))]
        (some p)) 4 1 [] 0
      [ApiItem.mk (some (PyVal.str ("8"))) (some (ApiEntry.mk (some (PyVal.str ("40884")))))]
      (some 1) rfl (Or.inr rfl)).trans (by decide)

/-- C10: in the paginated fetcher the inclusion test is truthiness of the
extracted values, not field presence: an item whose participant identifier
or event identifier is present but falsy — and the falsy values of the
identifier domain are exactly the integer 0 and the empty string — is
skipped exactly as if the field were missing, so no record built from such
an identifier ever reaches reconciliation. -/
theorem falsy_identifier_skipped (it : ApiItem) (v : PyVal) (hv : truthy v = false) :
    processItem (ApiItem.mk (some v) it.event_entry)
        = processItem (ApiItem.mk none it.event_entry)
    ∧ processItem (ApiItem.mk it.room_id (some (ApiEntry.mk (some v))))
        = processItem (ApiItem.mk it.room_id (some (ApiEntry.mk none)))
    ∧ processItem (ApiItem.mk (some v) it.event_entry) = none
    ∧ processItem (ApiItem.mk it.room_id (some (ApiEntry.mk (some v)))) = none
    ∧ truthy (PyVal.int 0) = false
    ∧ truthy (PyVal.str ("")) = false := by
  have hroom : ∀ ee, processItem (ApiItem.mk (some v) ee) = none := by
    intro ee
    cases ee with
    | none => rfl
    | some e =>
      cases e with
      | mk eid =>
        cases eid with
        | none => rfl
        | some w => simp [processItem, entryEventId, hv]
  have hnone : ∀ ee, processItem (ApiItem.mk none ee) = none := fun _ => rfl
  have hev : ∀ rid, processItem (ApiItem.mk rid (some (ApiEntry.mk (some v)))) = none := by
    intro rid
    cases rid with
    | none => rfl
    | some rv => simp [processItem, entryEventId, hv]
  have hev_none : ∀ rid, processItem (ApiItem.mk rid (some (ApiEntry.mk none))) = none := by
    intro rid
    cases rid with
    | none => rfl
    | some rv => rfl
  exact ⟨(hroom it.event_entry).trans (hnone it.event_entry).symm,
    (hev it.room_id).trans (hev_none it.room_id).symm,
    hroom it.event_entry, hev it.room_id, rfl, rfl⟩

theorem falsy_identifier_skipped_witness :
    processItem (ApiItem.mk (some (PyVal.int 0))
        (some (ApiEntry.mk (some (PyVal.int 3))))) = none :=
  (falsy_identifier_skipped
    (ApiItem.mk (some (PyVal.int 5)) (some (ApiEntry.mk (some (PyVal.int 3)))))
    (PyVal.int 0) (by decide)).2.2.1

end SREvent
